import Mathlib

/-!
Verification of the YUI Selectable utility (src/selectable/selectable.js).

Elements (DOM nodes) are modelled by natural-number identities.  The only
CSS class the utility manipulates is the configured `selectClass`
(`ui-selected` by default), so the class state of the document is the list
of element ids currently carrying that class (`marked`).  DOM element
references are always truthy in JavaScript, which matters for the
`while (item = els.pop())` loop in `deselect`: the loop drains the whole
array, so it is modelled as reverse-plus-filter.
-/

namespace SelectableJs

/-- Axis-aligned rectangle with the field order of the external
`YAHOO.util.Region` constructor `(t, r, b, l)`. -/
structure Region where
  top : Int
  right : Int
  bottom : Int
  left : Int
deriving DecidableEq, Repr

/-- External `YAHOO.util.Region.prototype.contains(region)`:
`region.left >= this.left && region.right <= this.right &&
 region.top >= this.top && region.bottom <= this.bottom`. -/
def Region.containsReg (outer inner : Region) : Bool :=
  inner.left ≥ outer.left && inner.right ≤ outer.right &&
  inner.top ≥ outer.top && inner.bottom ≤ outer.bottom

/-- External `YAHOO.util.Region.prototype.intersect(region)`:
`t = max(tops), r = min(rights), b = min(bottoms), l = max(lefts)`;
returns the intersection region when `b >= t && r >= l`, else `null`. -/
def Region.intersect (a b : Region) : Option Region :=
  if min a.bottom b.bottom ≥ max a.top b.top ∧ min a.right b.right ≥ max a.left b.left then
    some ⟨max a.top b.top, min a.right b.right, min a.bottom b.bottom, max a.left b.left⟩
  else
    none

/-- Source `Selectable.Overlay.prototype.inRegion(test, selectedRegion)`
(selectable.js lines 146-156): true when `selectedRegion.contains(test)`
or `selectedRegion.intersect(test) != null`. -/
def inRegion (test selectedRegion : Region) : Bool :=
  if selectedRegion.containsReg test then
    true
  else if (selectedRegion.intersect test).isSome then
    true
  else
    false

/-- Modelled from the spec: `overlaps(a, b) := contains(b, a) OR intersects(a, b)`
(spec section 4.1), where `intersects` is the external region utility's
intersection test (`intersect` yields a region). -/
def overlaps (a b : Region) : Bool :=
  Region.containsReg b a || (Region.intersect a b).isSome

/-- Dom.hasClass for the single modelled class: does `el` carry the mark? -/
def hasClass (marked : List Nat) (el : Nat) : Bool :=
  decide (el ∈ marked)

/-- Dom.addClass for the single modelled class (no-op when present). -/
def addClass (marked : List Nat) (el : Nat) : List Nat :=
  if el ∈ marked then marked else marked ++ [el]

/-- Dom.removeClass for the single modelled class. -/
def removeClass (marked : List Nat) (el : Nat) : List Nat :=
  marked.filter (fun x => decide (x ≠ el))

/-- Per-instance state of the Selectable utility: the container's children,
the document's class state (`marked`), and the instance properties
`selected`, `slected` (the stray property created by `deselectAll`'s typo),
`lastSelected`, `mouseDown`, `overlayShown` (which starts out undefined in
the JavaScript, hence `Option Bool` with `none` initially), and `initXy`. -/
structure SelState where
  children : List Nat
  marked : List Nat
  selected : List Nat
  slected : List Nat
  lastSelected : Option Nat
  mouseDown : Bool
  overlayShown : Option Bool
  initXy : Int × Int
deriving DecidableEq, Repr

/-- Freshly initialized instance over the given container children. -/
def initState (children : List Nat) : SelState :=
  { children := children
    marked := []
    selected := []
    slected := []
    lastSelected := none
    mouseDown := false
    overlayShown := none
    initXy := (0, 0) }

/-- Source `getChildren` (lines 313-315). -/
def getChildren (s : SelState) : List Nat :=
  s.children

/-- Source `isSelected` (lines 458-460): a pure CSS-class test. -/
def isSelected (s : SelState) (el : Nat) : Bool :=
  hasClass s.marked el

/-- Source `select` (lines 403-414). -/
def select (s : SelState) (el : Nat) : SelState :=
  if isSelected s el then
    s
  else
    { s with
        selected := s.selected ++ [el]
        marked := addClass s.marked el
        lastSelected := some el }

/-- Source `deselect` (lines 421-439): pops every entry off the old array,
pushing back everything other than `el` (hence the reversal), then removes
the class mark. -/
def deselect (s : SelState) (el : Nat) : SelState :=
  if !isSelected s el then
    s
  else
    { s with
        selected := s.selected.reverse.filter (fun x => decide (x ≠ el))
        lastSelected := some el
        marked := removeClass s.marked el }

/-- Source `selectAll` (lines 466-469): replaces `selected` with the child
list and batch-adds the class. -/
def selectAll (s : SelState) : SelState :=
  { s with
      selected := s.children
      marked := s.children.foldl addClass s.marked }

/-- Source `deselectAll` (lines 475-478): batch-removes the class from the
current `selected` entries, then assigns `[]` to the misspelled property
`slected`, leaving `selected` itself untouched. -/
def deselectAll (s : SelState) : SelState :=
  { s with
      marked := s.selected.foldl removeClass s.marked
      slected := [] }

/-- An argument to `getElements`/`selectRange`: either an index
(`lang.isNumber` true) or an element reference. -/
inductive Endpoint where
  | idx (n : Nat)
  | elem (el : Nat)
deriving DecidableEq, Repr

/-- The inner `getIndex` closure of `getElements` (lines 328-335): first
index whose child equals `el`, `-1` (here `none`) when absent. -/
def getIndex : List Nat → Nat → Option Nat
  | [], _ => none
  | c :: cs, el => if c = el then some 0 else (getIndex cs el).map (· + 1)

/-- Endpoint resolution inside `getElements`: numbers pass through, element
references go through `getIndex`. -/
def resolveEndpoint (s : SelState) : Endpoint → Option Nat
  | .idx n => some n
  | .elem el => getIndex s.children el

/-- Source `getElements` (lines 325-368): resolve both endpoints (empty
result when either fails), swap when `start > end`, and take the inclusive
slice `children.slice(start, end + 1)`. -/
def getElements (s : SelState) (start finish : Endpoint) : List Nat :=
  match resolveEndpoint s start, resolveEndpoint s finish with
  | some i, some j =>
    let lo := if i > j then j else i
    let hi := if i > j then i else j
    (s.children.drop lo).take (hi + 1 - lo)
  | _, _ => []

/-- Source `selectRange` (lines 446-451): `Dom.batch(elements, this.select)`. -/
def selectRange (s : SelState) (start finish : Endpoint) : SelState :=
  (getElements s start finish).foldl select s

/-- Source `handleClickEvent` (lines 486-515).  `target?` is the result of
the `getTarget` DOM walk (resolution up to a direct child of the container,
`null` when no such ancestor exists). -/
def handleClickEvent (s : SelState) (target? : Option Nat) (ctrl shift : Bool) : SelState :=
  match target? with
  | none => s
  | some target =>
    let s1 := if ctrl = false then deselectAll s else s
    match shift, s1.lastSelected with
    | true, some anchor => selectRange s1 (.elem anchor) (.elem target)
    | _, _ =>
      if isSelected s1 target then deselect s1 target else select s1 target

/-- Shared overlay/document state.  `Selectable.Overlay.prototype.cache`
is one object on the prototype, shared by every controller (and the overlay
itself is a static singleton, see `Selectable.getOverlay`), so it is
modelled as a single insertion-ordered association list.  `instancesChildren`
models the child lists of every controller registered in
`Selectable.instances`; `getRegion` is the current DOM geometry
(`Dom.getRegion`).  `overlayRegion` is the overlay div's own current region
as positioned/sized by `moveTo`/`setWidth`/`setHeight`. -/
structure World where
  overlayCache : List (Nat × Region)
  overlayHidden : Bool
  overlayRegion : Region
  instancesChildren : List (List Nat)
  getRegion : Nat → Region

/-- JavaScript property assignment `cache[id] = region`: overwrite in place
when the key exists, append otherwise (object keys keep insertion order). -/
def cacheUpdate (c : List (Nat × Region)) (id : Nat) (r : Region) : List (Nat × Region) :=
  if c.any (fun p => p.1 = id) then
    c.map (fun p => if p.1 = id then (id, r) else p)
  else
    c ++ [(id, r)]

/-- Source `_cacheRegion` (lines 113-119): store the element's current
region under its id. -/
def cacheRegion (w : World) (c : List (Nat × Region)) (el : Nat) : List (Nat × Region) :=
  cacheUpdate c el (w.getRegion el)

/-- Source `refreshCache` (lines 97-107): for every registered Selectable
instance, batch `_cacheRegion` over its children. -/
def refreshCache (w : World) : World :=
  { w with
      overlayCache :=
        w.instancesChildren.foldl (fun c ch => ch.foldl (cacheRegion w) c) w.overlayCache }

/-- Source `Overlay.show` (lines 162-166): refresh the cache, unhide. -/
def overlayShow (w : World) : World :=
  { refreshCache w with overlayHidden := false }

/-- Source `Overlay.hide` (lines 172-174). -/
def overlayHide (w : World) : World :=
  { w with overlayHidden := true }

/-- Source `getContains` (lines 127-138): every cached id whose stored
region passes `inRegion` against the overlay element's current region. -/
def getContains (w : World) : List Nat :=
  ((w.overlayCache.filter (fun p => inRegion p.2 w.overlayRegion)).map Prod.fst)

/-- Source `handleMouseDownEvent` (lines 523-527). -/
def handleMouseDownEvent (s : SelState) (xy : Int × Int) : SelState :=
  { s with mouseDown := true, initXy := xy }

/-- The overlay geometry computed by `handleMouseMoveEvent` (lines 568-581):
position is the componentwise minimum of the press point and the current
point, width/height the absolute coordinate deltas. -/
structure OverlayRect where
  left : Int
  top : Int
  width : Int
  height : Int
deriving DecidableEq, Repr

/-- Rectangle spanning the mousedown point `initXy` and the current pointer
point `xy`, exactly as lines 571-577 compute it. -/
def dragRect (initXy xy : Int × Int) : OverlayRect :=
  { left := min xy.1 initXy.1
    top := min xy.2 initXy.2
    width := |xy.1 - initXy.1|
    height := |xy.2 - initXy.2| }

/-- The DOM region the overlay element occupies after `moveTo(pos)`,
`setHeight`, `setWidth`. -/
def OverlayRect.toRegion (r : OverlayRect) : Region :=
  { top := r.top, right := r.left + r.width, bottom := r.top + r.height, left := r.left }

/-- Source `handleMouseMoveEvent` (lines 557-584).  Note the loose
comparison `this.overlayShown == false`: while `overlayShown` is still
`undefined` (before the first mouseup ever sets it to `false`) the
comparison is false and `show()` is skipped, hence the `some false` test. -/
def handleMouseMoveEvent (s : SelState) (w : World) (xy : Int × Int) : SelState × World :=
  if s.mouseDown = false then
    (s, w)
  else
    let w1 := if s.overlayShown = some false then overlayShow w else w
    let s1 := { s with overlayShown := some true }
    (s1, { w1 with overlayRegion := (dragRect s.initXy xy).toRegion })

/-- Source `handleMouseUpEvent` (lines 534-550): when the overlay was in
use, fetch `getContains()`, deselect all unless ctrl is held, batch-select
the contained elements, hide the overlay. -/
def handleMouseUpEvent (s : SelState) (w : World) (ctrl : Bool) : SelState × World :=
  let s0 := { s with mouseDown := false }
  if s0.overlayShown = some true then
    let elements := getContains w
    let s1 := if ctrl = false then deselectAll s0 else s0
    let s2 := elements.foldl select s1
    ({ s2 with overlayShown := some false }, overlayHide w)
  else
    (s0, w)

/-- Concrete drag scenario: two children, item 1 (region 100..110 square)
outside the overlay, item 2 (region 0..10 square) inside it; item 1 is
currently selected and marked; the overlay is up (`overlayShown`). -/
def lassoState : SelState :=
  { children := [1, 2]
    marked := [1]
    selected := [1]
    slected := []
    lastSelected := some 1
    mouseDown := true
    overlayShown := some true
    initXy := (0, 0) }

/-- Overlay world for the drag scenario: both items cached, overlay element
currently spanning the 0..20 square (covering item 2 only). -/
def lassoWorld : World :=
  { overlayCache := [(1, ⟨100, 110, 110, 100⟩), (2, ⟨0, 10, 10, 0⟩)]
    overlayHidden := false
    overlayRegion := ⟨0, 20, 20, 0⟩
    instancesChildren := [[1, 2]]
    getRegion := fun _ => ⟨0, 10, 10, 0⟩ }

/-- World with two registered Selectable instances (children `[1]` and
`[2]`) and a stale cache entry for element 9 left over from an earlier
drag; the overlay element currently spans the 0..100 square. -/
def crossWorld : World :=
  { overlayCache := [(9, ⟨10, 20, 20, 10⟩)]
    overlayHidden := false
    overlayRegion := ⟨0, 100, 100, 0⟩
    instancesChildren := [[1], [2]]
    getRegion := fun _ => ⟨10, 20, 20, 10⟩ }

/-- State with the mouse button down at press point (5, 5). -/
def moveState : SelState :=
  { initState [1] with mouseDown := true, initXy := (5, 5) }

/-- Minimal world for exercising `handleMouseMoveEvent`. -/
def moveWorld : World :=
  { overlayCache := []
    overlayHidden := true
    overlayRegion := ⟨0, 0, 0, 0⟩
    instancesChildren := []
    getRegion := fun _ => ⟨0, 0, 0, 0⟩ }

/-! Shared lemmas about the embedded operations. -/

theorem mem_foldl_removeClass (els m : List Nat) (x : Nat) :
    x ∈ els.foldl removeClass m ↔ (x ∈ m ∧ x ∉ els) := by
  induction els generalizing m with
  | nil => simp
  | cons a as ih =>
    rw [List.foldl_cons, ih]
    simp only [removeClass, List.mem_filter, decide_eq_true_eq, List.mem_cons]
    tauto

theorem deselectAll_marked_eq_nil {s : SelState} (h : ∀ x ∈ s.marked, x ∈ s.selected) :
    (deselectAll s).marked = [] := by
  refine List.eq_nil_iff_forall_not_mem.mpr fun x hx => ?_
  rw [show (deselectAll s).marked = s.selected.foldl removeClass s.marked from rfl,
    mem_foldl_removeClass] at hx
  exact hx.2 (h x hx.1)

theorem isSelected_select (s : SelState) (el x : Nat) :
    isSelected (select s el) x = true ↔ (isSelected s x = true ∨ x = el) := by
  unfold select
  by_cases h : isSelected s el
  · simp only [h, if_true]
    exact ⟨Or.inl, fun hx => hx.elim id fun hxe => hxe ▸ h⟩
  · have hel : el ∉ s.marked := by simpa [isSelected, hasClass] using h
    simp only [h, if_false, Bool.false_eq_true]
    simp [isSelected, hasClass, addClass, hel]

theorem isSelected_foldl_select (l : List Nat) (s : SelState) (x : Nat) :
    isSelected (l.foldl select s) x = true ↔ (isSelected s x = true ∨ x ∈ l) := by
  induction l generalizing s with
  | nil => simp
  | cons a as ih =>
    rw [List.foldl_cons, ih, isSelected_select]
    simp only [List.mem_cons]
    tauto

theorem getIndex_some {l : List Nat} {el i : Nat} (h : getIndex l el = some i) :
    i < l.length ∧ l.getD i 0 = el := by
  induction l generalizing i with
  | nil => simp [getIndex] at h
  | cons c cs ih =>
    rw [getIndex] at h
    split at h
    · next hc =>
      cases h
      exact ⟨Nat.succ_pos _, hc⟩
    · next hc =>
      cases hg : getIndex cs el with
      | none => rw [hg] at h; simp at h
      | some i' =>
        rw [hg] at h
        simp only [Option.map_some', Option.some.injEq] at h
        obtain ⟨hlt, hget⟩ := ih hg
        subst h
        exact ⟨by simpa using Nat.succ_lt_succ hlt, by simpa using hget⟩

theorem getElements_elem_eq (s : SelState) {a b i j : Nat}
    (ha : getIndex s.children a = some i) (hb : getIndex s.children b = some j) :
    getElements s (.elem a) (.elem b)
      = (s.children.drop (min i j)).take (max i j + 1 - min i j) := by
  simp only [getElements, resolveEndpoint, ha, hb]
  rcases le_or_lt i j with h | h
  · rw [if_neg (by omega), if_neg (by omega), Nat.min_eq_left h, Nat.max_eq_right h]
  · rw [if_pos (by omega), if_pos (by omega), Nat.min_eq_right (by omega),
      Nat.max_eq_left (by omega)]

theorem mem_drop_take_iff (l : List Nat) (lo hi : Nat) (hhi : hi < l.length) (x : Nat) :
    x ∈ (l.drop lo).take (hi + 1 - lo) ↔ ∃ k, lo ≤ k ∧ k ≤ hi ∧ l.getD k 0 = x := by
  constructor
  · intro hx
    rw [List.mem_iff_getElem] at hx
    obtain ⟨n, hn, hget⟩ := hx
    have hlen : n < hi + 1 - lo ∧ n < l.length - lo := by
      have := hn
      simp only [List.length_take, List.length_drop, Nat.lt_min] at this
      exact this
    refine ⟨lo + n, by omega, by omega, ?_⟩
    simp only [List.getElem_take, List.getElem_drop] at hget
    rw [List.getD_eq_getElem?_getD, List.getElem?_eq_getElem (by omega)]
    simpa using hget
  · rintro ⟨k, hlok, hkhi, hget⟩
    rw [List.mem_iff_getElem]
    have hk : k < l.length := by omega
    refine ⟨k - lo, ?_, ?_⟩
    · simp only [List.length_take, List.length_drop, Nat.lt_min]
      omega
    · simp only [List.getElem_take, List.getElem_drop]
      rw [List.getD_eq_getElem?_getD, List.getElem?_eq_getElem hk] at hget
      have hlk : lo + (k - lo) = k := by omega
      simp only [hlk]
      simpa using hget

theorem intersect_isSome_comm (a b : Region) :
    (Region.intersect a b).isSome = (Region.intersect b a).isSome := by
  unfold Region.intersect
  rw [min_comm a.bottom b.bottom, max_comm a.top b.top, min_comm a.right b.right,
    max_comm a.left b.left]

theorem keys_cacheUpdate (c : List (Nat × Region)) (id : Nat) (r : Region) (x : Nat)
    (hx : x ∈ c.map Prod.fst) : x ∈ (cacheUpdate c id r).map Prod.fst := by
  unfold cacheUpdate
  split
  · rw [List.map_map]
    have hcongr : ∀ p ∈ c, (Prod.fst ∘ fun p : Nat × Region =>
        if p.1 = id then (id, r) else p) p = Prod.fst p := by
      intro p _
      by_cases h : p.1 = id <;> simp [h, Function.comp]
    rw [List.map_congr_left hcongr]
    exact hx
  · rw [List.map_append]
    exact List.mem_append_left _ hx

theorem keys_foldl_cacheRegion (w : World) (l : List Nat) (c : List (Nat × Region)) (x : Nat)
    (hx : x ∈ c.map Prod.fst) : x ∈ (l.foldl (cacheRegion w) c).map Prod.fst := by
  induction l generalizing c with
  | nil => exact hx
  | cons a as ih => exact ih _ (keys_cacheUpdate c a (w.getRegion a) x hx)

theorem keys_foldl_instances (w : World) (ls : List (List Nat)) (c : List (Nat × Region))
    (x : Nat) (hx : x ∈ c.map Prod.fst) :
    x ∈ (ls.foldl (fun c ch => ch.foldl (cacheRegion w) c) c).map Prod.fst := by
  induction ls generalizing c with
  | nil => exact hx
  | cons ch ls ih => exact ih _ (keys_foldl_cacheRegion w ch c x hx)

theorem keys_refreshCache (w : World) (x : Nat)
    (hx : x ∈ w.overlayCache.map Prod.fst) :
    x ∈ (refreshCache w).overlayCache.map Prod.fst :=
  keys_foldl_instances w w.instancesChildren w.overlayCache x hx

/-! Claim theorems. -/

/-- C1: the claim says that after any `deselectAll()` the SelectionSet is
empty.  The code contradicts its own documentation (`Deselect every
previously selected element` / `selected: keeps track of all currently
selected elements`): line 477 assigns `[]` to the misspelled property
`slected`, so after `selectAll(); deselectAll()` on a one-item container
the `selected` array is still `[1]`, even though every visual mark was
removed as the claim states. -/
theorem C1_deselectAll_leaves_selected_array :
    (deselectAll (selectAll (initState [1]))).selected = [1]
    ∧ (deselectAll (selectAll (initState [1]))).marked = []
    ∧ (deselectAll (selectAll (initState [1]))).slected = [] := by
  decide

/-- C2 counterexample: with item 1 the sole selected item, a plain click on
it leaves the selected array as `[1, 1]` — not the empty set the claim
requires.  `handleClickEvent` first runs `deselectAll` (removing the mark
but, by the line-477 typo, not the array entry); the subsequent
class-based `isSelected` test is then false, so the handler re-selects the
target instead of deselecting it. -/
theorem C2_sole_selected_click_counterexample :
    (select (initState [1]) 1).selected = [1]
    ∧ isSelected (select (initState [1]) 1) 1 = true
    ∧ (handleClickEvent (select (initState [1]) 1) (some 1) false false).selected = [1, 1]
    ∧ (handleClickEvent (select (initState [1]) 1) (some 1) false false).selected ≠ [] := by
  decide

/-- C2 amended: for a plain click (no ctrl, no shift) resolving to item
`t`, from any state whose marked items all sit in the `selected` array,
the handler removes every mark, appends `t` to the (uncleared) `selected`
array and marks only `t`.  When the SelectionSet was empty beforehand the
result is exactly `[t]`; when `t` was the sole selected item the result is
`[t, t]`, never the empty set. -/
theorem C2_plain_click_appends_target (s : SelState) (t : Nat)
    (h : ∀ x ∈ s.marked, x ∈ s.selected) :
    (handleClickEvent s (some t) false false).selected = s.selected ++ [t]
    ∧ (handleClickEvent s (some t) false false).marked = [t] := by
  have hm : (deselectAll s).marked = [] := deselectAll_marked_eq_nil h
  have hsel : isSelected (deselectAll s) t = false := by
    simp [isSelected, hasClass, hm]
  have step : handleClickEvent s (some t) false false = select (deselectAll s) t := by
    simp [handleClickEvent, hsel]
  rw [step]
  unfold select
  rw [if_neg (by simp [hsel])]
  have hm' : s.selected.foldl removeClass s.marked = [] := hm
  exact ⟨rfl, by simp [deselectAll, addClass, hm']⟩

/-- C2 witness: the amended statement applied to the sole-selected
concrete state. -/
theorem C2_plain_click_witness :
    (handleClickEvent (select (initState [2]) 2) (some 2) false false).selected = [2, 2] :=
  (C2_plain_click_appends_target (select (initState [2]) 2) 2 (by decide)).1.trans (by decide)

/-- C3: the claim says no operation sequence ever puts a duplicate into the
`selected` array.  The code contradicts its own documentation through the
line-477 typo: the public sequence `select 1; deselectAll; select 1` from a
fresh instance yields `selected = [1, 1]`, because `deselectAll` removed
item 1's mark without removing its array entry, so the second `select`
(whose guard is the class test) pushes it again. -/
theorem C3_duplicate_selected_entries :
    (select (deselectAll (select (initState [1]) 1)) 1).selected = [1, 1]
    ∧ ¬(select (deselectAll (select (initState [1]) 1)) 1).selected.Nodup := by
  decide

/-- C4: the claim says that after pointer-up without ctrl the SelectionSet
equals exactly the lasso-contained items.  The handler does call
`deselectAll()` first and then selects every contained item, hides the
overlay and ends the drag — but because of the line-477 typo the
pre-selected item 1 (outside the lasso) stays in the `selected` array:
with `getContains = [2]` the result is `[1, 2]`, not `[2]`. -/
theorem C4_mouseup_keeps_stale_selection :
    getContains lassoWorld = [2]
    ∧ (handleMouseUpEvent lassoState lassoWorld false).1.selected = [1, 2]
    ∧ (handleMouseUpEvent lassoState lassoWorld false).1.selected ≠ [2]
    ∧ (handleMouseUpEvent lassoState lassoWorld false).1.marked = [2]
    ∧ (handleMouseUpEvent lassoState lassoWorld false).1.overlayShown = some false
    ∧ (handleMouseUpEvent lassoState lassoWorld false).2.overlayHidden = true := by
  decide

/-- C5: range selection is inclusive of both endpoints and
order-normalized.  Concretely, over items `[1..5]` selecting 2 (= B) and
shift-clicking 4 (= D) marks exactly `{2, 3, 4}`, and the reversed order
gives the same set; in general, for endpoints resolving to indices `i` and
`j`, `selectRange` marks exactly the previously marked items plus the
children whose index lies in `[min i j, max i j]`. -/
theorem C5_selectRange_inclusive_normalized :
    ((handleClickEvent (select (initState [1, 2, 3, 4, 5]) 2) (some 4) false true).selected.toFinset
        = ({2, 3, 4} : Finset Nat)
      ∧ (handleClickEvent (select (initState [1, 2, 3, 4, 5]) 4) (some 2) false true).selected.toFinset
        = ({2, 3, 4} : Finset Nat)
      ∧ (handleClickEvent (select (initState [1, 2, 3, 4, 5]) 2) (some 4) false true).marked
        = [2, 3, 4]
      ∧ (handleClickEvent (select (initState [1, 2, 3, 4, 5]) 4) (some 2) false true).marked
        = [2, 3, 4])
    ∧ ∀ (s : SelState) (a b i j : Nat),
        getIndex s.children a = some i → getIndex s.children b = some j →
        ∀ x, isSelected (selectRange s (.elem a) (.elem b)) x = true ↔
          (isSelected s x = true
            ∨ ∃ k, min i j ≤ k ∧ k ≤ max i j ∧ s.children.getD k 0 = x) := by
  refine ⟨by decide, ?_⟩
  intro s a b i j ha hb x
  have hi := (getIndex_some ha).1
  have hj := (getIndex_some hb).1
  rw [selectRange, isSelected_foldl_select, getElements_elem_eq s ha hb,
    mem_drop_take_iff _ _ _ (max_lt hi hj)]

/-- C5 witness: the general statement applied to a two-item list. -/
theorem C5_selectRange_witness :
    isSelected (selectRange (initState [5, 6]) (.elem 5) (.elem 6)) 6 = true :=
  (C5_selectRange_inclusive_normalized.2 (initState [5, 6]) 5 6 0 1 (by decide) (by decide)
    6).mpr (Or.inr ⟨1, by decide, by decide, by decide⟩)

/-- C6: if either endpoint of `selectRange` fails to resolve to a sibling
index, the entire call is a no-op — the state (in particular the
SelectionSet) is completely unchanged, with no partial selection. -/
theorem C6_unresolvable_endpoint_noop (s : SelState) (p q : Endpoint)
    (h : resolveEndpoint s p = none ∨ resolveEndpoint s q = none) :
    selectRange s p q = s := by
  have hge : getElements s p q = [] := by
    unfold getElements
    rcases h with h | h
    · rw [h]
    · rw [h]
      cases resolveEndpoint s p <;> rfl
  rw [selectRange, hge]
  rfl

/-- C6 witness: element 2 is not a child of the one-item container, so the
range call changes nothing. -/
theorem C6_unresolvable_witness :
    selectRange (initState [1]) (.elem 2) (.elem 1) = initState [1] :=
  C6_unresolvable_endpoint_noop (initState [1]) (.elem 2) (.elem 1) (Or.inl (by decide))

/-- C7: the lasso-membership predicate `inRegion(test, selectedRegion)`
coincides with the spec's `overlaps(a, b) = contains(b, a) OR
intersects(a, b)` for every pair of regions (the cached item region as
`a`, the drag rectangle as `b`). -/
theorem C7_inRegion_is_overlaps (a b : Region) : inRegion a b = overlaps a b := by
  unfold inRegion overlaps
  by_cases h : Region.containsReg b a
  · simp [h]
  · simp [h, intersect_isSome_comm b a]

/-- C8: the overlay rectangle computed on pointer-move is
normalization-symmetric — left/top are the componentwise minima and
width/height the absolute deltas — so dragging from (50, 50) to (10, 10)
produces the same rectangle `[10, 10, 40, 40]` as the reverse drag, and
while the mouse is down `handleMouseMoveEvent` places the overlay exactly
on that normalized rectangle. -/
theorem C8_drag_rectangle_normalized :
    (∀ p q : Int × Int, dragRect p q = dragRect q p)
    ∧ dragRect (50, 50) (10, 10) = ⟨10, 10, 40, 40⟩
    ∧ dragRect (10, 10) (50, 50) = ⟨10, 10, 40, 40⟩
    ∧ ∀ (s : SelState) (w : World) (xy : Int × Int), s.mouseDown = true →
        (handleMouseMoveEvent s w xy).2.overlayRegion = (dragRect s.initXy xy).toRegion := by
  refine ⟨?_, by decide, by decide, ?_⟩
  · intro p q
    simp only [dragRect, OverlayRect.mk.injEq]
    exact ⟨min_comm _ _, min_comm _ _, abs_sub_comm _ _, abs_sub_comm _ _⟩
  · intro s w xy h
    rw [handleMouseMoveEvent, if_neg (by simp [h])]

/-- C8 witness: the handler statement applied to a concrete mouse-down
state and pointer position. -/
theorem C8_drag_rectangle_witness :
    (handleMouseMoveEvent moveState moveWorld (1, 2)).2.overlayRegion
      = (dragRect moveState.initXy (1, 2)).toRegion :=
  C8_drag_rectangle_normalized.2.2.2 moveState moveWorld (1, 2) rfl

/-- C9: `isSelected` is purely the CSS-class test — it is invariant under
arbitrary replacement of the `selected` array — and it can disagree with
the array: after `select 1; deselectAll` (reachable through the public
interface) item 1 is still in `selected` yet `isSelected` reports false. -/
theorem C9_isSelected_is_pure_class_test :
    (∀ (s : SelState) (l : List Nat) (el : Nat),
        isSelected { s with selected := l } el = isSelected s el)
    ∧ (1 ∈ (deselectAll (select (initState [1]) 1)).selected
        ∧ isSelected (deselectAll (select (initState [1]) 1)) 1 = false) :=
  ⟨fun _ _ _ => rfl, by decide⟩

/-- C10: the shared overlay cache only ever grows: `cache[id] = region`
(`_cacheRegion`) and `refreshCache` preserve every existing key.  In the
concrete world with two registered instances and a stale entry 9 from an
earlier drag, `refreshCache` keeps key 9 and adds the children of BOTH
instances, and `getContains` then returns element 9 (no instance's child)
and element 2 (a child of the other instance) alongside element 1. -/
theorem C10_cache_grows_and_is_shared :
    (∀ (c : List (Nat × Region)) (id : Nat) (r : Region) (x : Nat),
        x ∈ c.map Prod.fst → x ∈ (cacheUpdate c id r).map Prod.fst)
    ∧ (∀ (w : World) (x : Nat),
        x ∈ w.overlayCache.map Prod.fst → x ∈ (refreshCache w).overlayCache.map Prod.fst)
    ∧ ((refreshCache crossWorld).overlayCache.map Prod.fst = [9, 1, 2]
        ∧ getContains (refreshCache crossWorld) = [9, 1, 2]
        ∧ (9 : Nat) ∉ ([1] : List Nat) ∧ (9 : Nat) ∉ ([2] : List Nat)
        ∧ (2 : Nat) ∉ ([1] : List Nat)) :=
  ⟨keys_cacheUpdate, keys_refreshCache, by decide⟩

/-- C10 witness: key preservation applied to a concrete cache update. -/
theorem C10_cache_witness :
    (5 : Nat) ∈ (cacheUpdate [(5, ⟨0, 0, 0, 0⟩)] 7 ⟨1, 1, 1, 1⟩).map Prod.fst :=
  C10_cache_grows_and_is_shared.1 [(5, ⟨0, 0, 0, 0⟩)] 7 ⟨1, 1, 1, 1⟩ 5 (by decide)

end SelectableJs
